import Mathlib

/-!
Verification of the kitchen POS order/order-item status reconciliation engine.

The definitions below are a shallow embedding of the TypeScript source:
the supabase order-CRUD module (createOrder, getOrderById, updateOrderItemStatus,
updateMultipleOrderItemsStatus, updateOrderStatusFromItems, updateOrderItem,
deleteOrderItem, recalculateOrderSubtotal) and the kitchen page view-model
(ordersByItemStatus).  Storage reads/writes are modelled with `Except` for
fallible fetches and with an explicit `Store` state for row mutations; prices
are exact rationals; machine effects (timestamps, logging) that no claim
depends on are dropped.
-/

namespace KitchenPos

/-- Item-level status domain (`OrderItemStatus` in the source). -/
inductive OrderItemStatus
  | new
  | in_progress
  | done
  | picked_up
  | cancelled
deriving DecidableEq, Repr

/-- Order-level status domain (`OrderStatus` in the source). -/
inductive OrderStatus
  | new
  | in_progress
  | ready
  | picked_up
  | cancelled
deriving DecidableEq, Repr

/-- Opaque storage failure (a supabase error object). -/
inductive StorageErr
  | err
deriving DecidableEq, Repr

/-- The `items.filter((item) => item.status !== "cancelled")` step of
`updateOrderStatusFromItems` ("active items"). -/
def activeItems (items : List OrderItemStatus) : List OrderItemStatus :=
  items.filter (fun s => !(s == OrderItemStatus.cancelled))

/-- The classification block of `updateOrderStatusFromItems` (the flag
computations and the if/else chain choosing `newOrderStatus`), applied to the
statuses of the active items. -/
def deriveActiveStatus (statuses : List OrderItemStatus) : OrderStatus :=
  let allNew := statuses.all (fun s => s == OrderItemStatus.new)
  let allPickedUp := statuses.all (fun s => s == OrderItemStatus.picked_up)
  let anyNew := statuses.any (fun s => s == OrderItemStatus.new)
  let anyInProgress := statuses.any (fun s => s == OrderItemStatus.in_progress)
  let anyDone := statuses.any (fun s => s == OrderItemStatus.done)
  let anyPickedUp := statuses.any (fun s => s == OrderItemStatus.picked_up)
  let allDoneOrPickedUp := statuses.all
    (fun s => s == OrderItemStatus.done || s == OrderItemStatus.picked_up)
  if allPickedUp then OrderStatus.picked_up
  else if allDoneOrPickedUp && !anyNew && !anyInProgress then OrderStatus.ready
  else if anyInProgress || anyDone || anyPickedUp then OrderStatus.in_progress
  else if allNew then OrderStatus.new
  else OrderStatus.new

/-- Embedding of `updateOrderStatusFromItems(orderId)`.

`itemsFetch` is the outcome of the order-items select, `orderFetch` the outcome
of the order-row select (consulted only on the paths where the source performs
it).  The result is always `.ok` because every storage failure in the source is
caught and turned into an early `return`; `.ok (some s)` means the order row
was written with status `s`, `.ok none` means the row was left untouched. -/
def updateOrderStatusFromItems
    (itemsFetch : Except StorageErr (List OrderItemStatus))
    (orderFetch : Except StorageErr OrderStatus) :
    Except StorageErr (Option OrderStatus) :=
  match itemsFetch with
  | Except.error _ => Except.ok none
  | Except.ok items =>
    if items.isEmpty then Except.ok none
    else
      let active := activeItems items
      if active.isEmpty then
        -- all items cancelled: unconditional write, order fetch never happens
        Except.ok (some OrderStatus.cancelled)
      else
        let newOrderStatus := deriveActiveStatus active
        match orderFetch with
        | Except.error _ => Except.ok none
        | Except.ok stored =>
          if stored == OrderStatus.cancelled then Except.ok none
          else if stored == OrderStatus.picked_up &&
              !(newOrderStatus == OrderStatus.picked_up) then Except.ok none
          else if !(stored == newOrderStatus) then Except.ok (some newOrderStatus)
          else Except.ok none

/-! ### Helper lemmas about the classification -/

theorem deriveActiveStatus_ne_cancelled (a : List OrderItemStatus) :
    deriveActiveStatus a ≠ OrderStatus.cancelled := by
  unfold deriveActiveStatus
  dsimp only
  repeat' split
  all_goals simp

theorem all_of_perm {α : Type} (p : α → Bool) {l l₂ : List α} (h : l.Perm l₂) :
    l.all p = l₂.all p := by
  cases hb : l₂.all p with
  | true =>
    rw [List.all_eq_true] at hb ⊢
    exact fun x hx => hb x (h.mem_iff.mp hx)
  | false =>
    rw [List.all_eq_false] at hb ⊢
    obtain ⟨x, hx, hpx⟩ := hb
    exact ⟨x, h.mem_iff.mpr hx, hpx⟩

theorem any_of_perm {α : Type} (p : α → Bool) {l l₂ : List α} (h : l.Perm l₂) :
    l.any p = l₂.any p := by
  cases hb : l₂.any p with
  | true =>
    rw [List.any_eq_true] at hb ⊢
    obtain ⟨x, hx, hpx⟩ := hb
    exact ⟨x, h.mem_iff.mpr hx, hpx⟩
  | false =>
    rw [List.any_eq_false] at hb ⊢
    exact fun x hx => hb x (h.mem_iff.mp hx)

theorem deriveActiveStatus_perm {l l₂ : List OrderItemStatus} (h : l.Perm l₂) :
    deriveActiveStatus l = deriveActiveStatus l₂ := by
  unfold deriveActiveStatus
  rw [all_of_perm _ h, all_of_perm (fun s => s == OrderItemStatus.picked_up) h,
    any_of_perm (fun s => s == OrderItemStatus.new) h,
    any_of_perm (fun s => s == OrderItemStatus.in_progress) h,
    any_of_perm (fun s => s == OrderItemStatus.done) h,
    any_of_perm (fun s => s == OrderItemStatus.picked_up) h,
    all_of_perm (fun s => s == OrderItemStatus.done || s == OrderItemStatus.picked_up) h]

theorem activeItems_perm {l l₂ : List OrderItemStatus} (h : l.Perm l₂) :
    (activeItems l).Perm (activeItems l₂) :=
  h.filter _

/-- all items being done-or-picked_up rules out any new / any in_progress. -/
theorem allDoneOrPickedUp_no_new_no_in_progress (a : List OrderItemStatus)
    (h : a.all (fun s => s == OrderItemStatus.done || s == OrderItemStatus.picked_up) = true) :
    a.any (fun s => s == OrderItemStatus.new) = false ∧
    a.any (fun s => s == OrderItemStatus.in_progress) = false := by
  rw [List.all_eq_true] at h
  constructor
  · rw [List.any_eq_false]
    intro x hx
    have := h x hx
    cases x <;> simp_all
  · rw [List.any_eq_false]
    intro x hx
    have := h x hx
    cases x <;> simp_all

theorem any_or_split (a : List OrderItemStatus) (p q : OrderItemStatus → Bool) :
    a.any (fun s => p s || q s) = (a.any p || a.any q) := by
  induction a with
  | nil => rfl
  | cons x xs ih =>
    simp only [List.any_cons, ih]
    cases p x <;> cases q x <;> simp

theorem orderStatus_ne_cancelled_mem (s : OrderStatus)
    (h : s ≠ OrderStatus.cancelled) :
    s ∈ [OrderStatus.new, OrderStatus.in_progress, OrderStatus.ready,
      OrderStatus.picked_up] := by
  cases s <;> simp_all

/-- The classification block matches the spec wording: the extra
`!anyNew && !anyInProgress` conjuncts on the `ready` branch are redundant, and
the unreachable `allNew` fallback collapses into `new`. -/
theorem deriveActiveStatus_eq_rule (a : List OrderItemStatus) :
    deriveActiveStatus a =
      (if a.all (fun s => s == OrderItemStatus.picked_up) then
        OrderStatus.picked_up
      else if a.all
          (fun s => s == OrderItemStatus.done || s == OrderItemStatus.picked_up) then
        OrderStatus.ready
      else if a.any
          (fun s => s == OrderItemStatus.in_progress || s == OrderItemStatus.done ||
            s == OrderItemStatus.picked_up) then
        OrderStatus.in_progress
      else OrderStatus.new) := by
  unfold deriveActiveStatus
  dsimp only
  cases hA : a.all (fun s => s == OrderItemStatus.picked_up) with
  | true => simp [hA]
  | false =>
    cases hB : a.all
        (fun s => s == OrderItemStatus.done || s == OrderItemStatus.picked_up) with
    | true =>
      obtain ⟨hN, hI⟩ := allDoneOrPickedUp_no_new_no_in_progress a hB
      simp [hA, hB, hN, hI]
    | false =>
      rw [any_or_split a
        (fun s => s == OrderItemStatus.in_progress || s == OrderItemStatus.done)
        (fun s => s == OrderItemStatus.picked_up),
        any_or_split a (fun s => s == OrderItemStatus.in_progress)
        (fun s => s == OrderItemStatus.done)]
      cases hC : a.any (fun s => s == OrderItemStatus.in_progress) <;>
        cases hD : a.any (fun s => s == OrderItemStatus.done) <;>
          cases hE : a.any (fun s => s == OrderItemStatus.picked_up) <;>
            simp [hA, hB, hC, hD, hE]

theorem activeItems_isEmpty_false (items : List OrderItemStatus)
    (h : ∃ s ∈ items, s ≠ OrderItemStatus.cancelled) :
    (activeItems items).isEmpty = false := by
  obtain ⟨s, hs, hsc⟩ := h
  have hmem : s ∈ activeItems items := by
    unfold activeItems
    rw [List.mem_filter]
    exact ⟨hs, by simp [hsc]⟩
  cases hact : activeItems items with
  | nil => rw [hact] at hmem; exact absurd hmem (List.not_mem_nil s)
  | cons a l => rfl

theorem items_isEmpty_false_of_active (items : List OrderItemStatus)
    (h : ∃ s ∈ items, s ≠ OrderItemStatus.cancelled) :
    items.isEmpty = false := by
  obtain ⟨s, hs, _⟩ := h
  cases items with
  | nil => exact absurd hs (List.not_mem_nil s)
  | cons a l => rfl

/-- Reduction of `updateOrderStatusFromItems` on the path where some item is
active and the order-row fetch succeeds: it reaches the guard/compare chain
with the derived status. -/
theorem updateOrderStatusFromItems_active_ok (items : List OrderItemStatus)
    (stored : OrderStatus)
    (h : ∃ s ∈ items, s ≠ OrderItemStatus.cancelled) :
    updateOrderStatusFromItems (Except.ok items) (Except.ok stored) =
      (if stored == OrderStatus.cancelled then Except.ok none
      else if stored == OrderStatus.picked_up &&
          !(deriveActiveStatus (activeItems items) == OrderStatus.picked_up) then
        Except.ok none
      else if !(stored == deriveActiveStatus (activeItems items)) then
        Except.ok (some (deriveActiveStatus (activeItems items)))
      else Except.ok none) := by
  have h0 := items_isEmpty_false_of_active items h
  have h1 := activeItems_isEmpty_false items h
  unfold updateOrderStatusFromItems
  dsimp only
  simp [h0, h1]

/-- On the same path, a failing order-row fetch leaves the row untouched. -/
theorem updateOrderStatusFromItems_active_err (items : List OrderItemStatus)
    (e : StorageErr)
    (h : ∃ s ∈ items, s ≠ OrderItemStatus.cancelled) :
    updateOrderStatusFromItems (Except.ok items) (Except.error e) =
      Except.ok none := by
  have h0 := items_isEmpty_false_of_active items h
  have h1 := activeItems_isEmpty_false items h
  unfold updateOrderStatusFromItems
  dsimp only
  simp [h0, h1]

/-- C1: for every order whose item multiset is non-empty and not all
cancelled, the classification step of `updateOrderStatusFromItems` derives
exactly one status in `{new, in_progress, ready, picked_up}` from the active
(non-cancelled) item statuses, is invariant under reordering of the items, and
matches the claimed case rule: all active `picked_up` gives `picked_up`;
otherwise all active `done`/`picked_up` gives `ready`; otherwise any active
`in_progress`/`done`/`picked_up` gives `in_progress`; otherwise `new`. -/
theorem claim_C1_aggregation_rule
    (items items₂ : List OrderItemStatus)
    (h1 : items ≠ [])
    (h2 : ∃ s ∈ items, s ≠ OrderItemStatus.cancelled)
    (hperm : items.Perm items₂) :
    deriveActiveStatus (activeItems items) ∈
      [OrderStatus.new, OrderStatus.in_progress, OrderStatus.ready,
        OrderStatus.picked_up] ∧
    deriveActiveStatus (activeItems items₂) = deriveActiveStatus (activeItems items) ∧
    deriveActiveStatus (activeItems items) =
      (if (activeItems items).all (fun s => s == OrderItemStatus.picked_up) then
        OrderStatus.picked_up
      else if (activeItems items).all
          (fun s => s == OrderItemStatus.done || s == OrderItemStatus.picked_up) then
        OrderStatus.ready
      else if (activeItems items).any
          (fun s => s == OrderItemStatus.in_progress || s == OrderItemStatus.done ||
            s == OrderItemStatus.picked_up) then
        OrderStatus.in_progress
      else OrderStatus.new) :=
  ⟨orderStatus_ne_cancelled_mem _ (deriveActiveStatus_ne_cancelled _),
    (deriveActiveStatus_perm (activeItems_perm hperm)).symm,
    deriveActiveStatus_eq_rule _⟩

theorem claim_C1_aggregation_rule_witness :
    deriveActiveStatus (activeItems [OrderItemStatus.done, OrderItemStatus.picked_up]) ∈
      [OrderStatus.new, OrderStatus.in_progress, OrderStatus.ready,
        OrderStatus.picked_up] ∧
    deriveActiveStatus (activeItems [OrderItemStatus.picked_up, OrderItemStatus.done]) =
      deriveActiveStatus (activeItems [OrderItemStatus.done, OrderItemStatus.picked_up]) ∧
    deriveActiveStatus (activeItems [OrderItemStatus.done, OrderItemStatus.picked_up]) =
      (if (activeItems [OrderItemStatus.done, OrderItemStatus.picked_up]).all
          (fun s => s == OrderItemStatus.picked_up) then
        OrderStatus.picked_up
      else if (activeItems [OrderItemStatus.done, OrderItemStatus.picked_up]).all
          (fun s => s == OrderItemStatus.done || s == OrderItemStatus.picked_up) then
        OrderStatus.ready
      else if (activeItems [OrderItemStatus.done, OrderItemStatus.picked_up]).any
          (fun s => s == OrderItemStatus.in_progress || s == OrderItemStatus.done ||
            s == OrderItemStatus.picked_up) then
        OrderStatus.in_progress
      else OrderStatus.new) :=
  claim_C1_aggregation_rule _ _ (by decide)
    ⟨OrderItemStatus.done, by decide, by decide⟩ (by decide)

/-- C2: when every item of a non-empty order is cancelled,
`updateOrderStatusFromItems` writes `cancelled`, regardless of the stored
order status (the write happens before the order row is even fetched, so the
conclusion holds for every fetch outcome, `picked_up` included). -/
theorem claim_C2_cancelled_exhaustion
    (items : List OrderItemStatus)
    (orderFetch : Except StorageErr OrderStatus)
    (h1 : items ≠ [])
    (h2 : ∀ s ∈ items, s = OrderItemStatus.cancelled) :
    updateOrderStatusFromItems (Except.ok items) orderFetch =
      Except.ok (some OrderStatus.cancelled) := by
  have hne : items.isEmpty = false := by
    cases items with
    | nil => exact absurd rfl h1
    | cons a l => rfl
  have hact : activeItems items = [] := by
    unfold activeItems
    rw [List.filter_eq_nil_iff]
    intro a ha
    simp [h2 a ha]
  unfold updateOrderStatusFromItems
  dsimp only
  simp [hne, hact]

theorem claim_C2_cancelled_exhaustion_witness :
    updateOrderStatusFromItems
      (Except.ok [OrderItemStatus.cancelled, OrderItemStatus.cancelled])
      (Except.ok OrderStatus.picked_up) = Except.ok (some OrderStatus.cancelled) :=
  claim_C2_cancelled_exhaustion _ _ (by decide) (by decide)

/-- C3: with at least one non-cancelled item, `updateOrderStatusFromItems`
leaves a `cancelled` order untouched, and leaves a `picked_up` order untouched
whenever the newly derived status is not `picked_up`. -/
theorem claim_C3_monotonicity_guards
    (items : List OrderItemStatus)
    (h : ∃ s ∈ items, s ≠ OrderItemStatus.cancelled) :
    updateOrderStatusFromItems (Except.ok items) (Except.ok OrderStatus.cancelled) =
      Except.ok none ∧
    (deriveActiveStatus (activeItems items) ≠ OrderStatus.picked_up →
      updateOrderStatusFromItems (Except.ok items) (Except.ok OrderStatus.picked_up) =
        Except.ok none) := by
  constructor
  · rw [updateOrderStatusFromItems_active_ok items _ h]
    rfl
  · intro hnp
    rw [updateOrderStatusFromItems_active_ok items _ h]
    have hb : (deriveActiveStatus (activeItems items) == OrderStatus.picked_up) = false := by
      simp [hnp]
    simp [hb]

theorem claim_C3_monotonicity_guards_witness :
    updateOrderStatusFromItems (Except.ok [OrderItemStatus.new])
      (Except.ok OrderStatus.cancelled) = Except.ok none ∧
    updateOrderStatusFromItems (Except.ok [OrderItemStatus.new])
      (Except.ok OrderStatus.picked_up) = Except.ok none :=
  ⟨(claim_C3_monotonicity_guards [OrderItemStatus.new]
      ⟨OrderItemStatus.new, by decide, by decide⟩).1,
    (claim_C3_monotonicity_guards [OrderItemStatus.new]
      ⟨OrderItemStatus.new, by decide, by decide⟩).2 (by decide)⟩

/-- C9 counterexample: an order whose single item is cancelled and whose
stored status is already `cancelled`.  The derived status (`cancelled`) equals
the stored value, yet the all-cancelled branch writes the row unconditionally
(`some` = a write occurred), contradicting "writes ... only if it differs from
the stored value". -/
theorem claim_C9_counterexample :
    updateOrderStatusFromItems (Except.ok [OrderItemStatus.cancelled])
      (Except.ok OrderStatus.cancelled) = Except.ok (some OrderStatus.cancelled) := rfl

/-- C9 amended: on every invocation with at least one non-cancelled item, the
order row is written only if the newly derived status differs from the stored
status (and every write carries exactly the derived status); when the derived
status equals the stored value the row is untouched.  (In the all-cancelled
branch the write of `cancelled` is unconditional, even when the stored status
is already `cancelled` — see the counterexample.) -/
theorem claim_C9_amended_write_only_on_change
    (items : List OrderItemStatus) (stored : OrderStatus)
    (h : ∃ s ∈ items, s ≠ OrderItemStatus.cancelled) :
    (updateOrderStatusFromItems (Except.ok items) (Except.ok stored) ≠ Except.ok none →
      updateOrderStatusFromItems (Except.ok items) (Except.ok stored) =
        Except.ok (some (deriveActiveStatus (activeItems items))) ∧
      deriveActiveStatus (activeItems items) ≠ stored) ∧
    (deriveActiveStatus (activeItems items) = stored →
      updateOrderStatusFromItems (Except.ok items) (Except.ok stored) =
        Except.ok none) := by
  rw [updateOrderStatusFromItems_active_ok items stored h]
  constructor
  · intro hw
    by_cases h1 : (stored == OrderStatus.cancelled) = true
    · rw [if_pos h1] at hw; exact absurd rfl hw
    · rw [if_neg h1] at hw ⊢
      by_cases h2 : (stored == OrderStatus.picked_up &&
          !(deriveActiveStatus (activeItems items) == OrderStatus.picked_up)) = true
      · rw [if_pos h2] at hw; exact absurd rfl hw
      · rw [if_neg h2] at hw ⊢
        by_cases h3 : (!(stored == deriveActiveStatus (activeItems items))) = true
        · rw [if_pos h3]
          refine ⟨rfl, ?_⟩
          intro heq
          rw [heq] at h3
          simp at h3
        · rw [if_neg h3] at hw; exact absurd rfl hw
  · intro heq
    have hne := deriveActiveStatus_ne_cancelled (activeItems items)
    rw [heq] at hne
    have h1 : (stored == OrderStatus.cancelled) = false := by
      cases stored <;> simp_all
    have h3 : (!(stored == deriveActiveStatus (activeItems items))) = false := by
      simp [heq]
    rw [if_neg (by rw [h1]; exact Bool.false_ne_true)]
    by_cases h2 : (stored == OrderStatus.picked_up &&
        !(deriveActiveStatus (activeItems items) == OrderStatus.picked_up)) = true
    · rw [if_pos h2]
    · rw [if_neg h2, if_neg (by rw [h3]; exact Bool.false_ne_true)]

theorem claim_C9_amended_write_only_on_change_witness :
    updateOrderStatusFromItems (Except.ok [OrderItemStatus.new, OrderItemStatus.done])
      (Except.ok OrderStatus.new) =
      Except.ok (some (deriveActiveStatus
        (activeItems [OrderItemStatus.new, OrderItemStatus.done]))) ∧
    deriveActiveStatus (activeItems [OrderItemStatus.new, OrderItemStatus.done]) ≠
      OrderStatus.new :=
  (claim_C9_amended_write_only_on_change
    [OrderItemStatus.new, OrderItemStatus.done] OrderStatus.new
    ⟨OrderItemStatus.new, by decide, by decide⟩).1
    (fun hc => Option.noConfusion (Except.ok.inj hc))

/-- `updateOrderStatusFromItems` never throws: every storage failure of its
two fetches is caught and turned into an early return. -/
theorem updateOrderStatusFromItems_total
    (f : Except StorageErr (List OrderItemStatus))
    (g : Except StorageErr OrderStatus) :
    ∃ w, updateOrderStatusFromItems f g = Except.ok w := by
  unfold updateOrderStatusFromItems
  split
  · exact ⟨_, rfl⟩
  · dsimp only
    repeat' split
    all_goals exact ⟨_, rfl⟩

/-- The projection of an order-item row used by `updateOrderItemStatus`
(its initial `select("status, order_id")`), also standing in for the updated
row the item-update write returns. -/
structure ItemRow where
  status : OrderItemStatus
  order_id : Nat
deriving DecidableEq, Repr

/-- Embedding of `updateOrderItemStatus(orderItemId, newStatus)` as a function
of the outcomes of its storage operations: the initial item fetch, the item
update write, the best-effort status-event append, and the two fetches
performed inside `updateOrderStatusFromItems`.  `.error` models a thrown
supabase error.  The event-append outcome is ignored because its failure is
logged and swallowed in the source; on success the result carries the updated
item row (returned to the caller) and the order-row write performed by
`updateOrderStatusFromItems` (`none` = order row untouched). -/
def updateOrderItemStatus
    (itemFetch : Except StorageErr ItemRow)
    (itemWrite : Except StorageErr ItemRow)
    (eventAppend : Except StorageErr Unit)
    (itemsFetch : Except StorageErr (List OrderItemStatus))
    (orderFetch : Except StorageErr OrderStatus) :
    Except StorageErr (ItemRow × Option OrderStatus) :=
  match itemFetch with
  | Except.error e => Except.error e
  | Except.ok _ =>
    match itemWrite with
    | Except.error e => Except.error e
    | Except.ok updatedItem =>
      match updateOrderStatusFromItems itemsFetch orderFetch with
      | Except.error e => Except.error e
      | Except.ok w => Except.ok (updatedItem, w)

/-- C10: `updateOrderStatusFromItems` catches every storage failure of its two
fetches and returns normally: it never produces an error, a failing item fetch
yields no order-row write, and (with at least one active item, so that the
order fetch is actually reached) a failing order fetch also yields no write.
Consequently `updateOrderItemStatus`, once its item fetch and item write have
succeeded, returns the updated item as a success no matter how the order-level
fetches fared — the order status is silently left stale. -/
theorem claim_C10_swallowed_storage_failures
    (itemsFetch : Except StorageErr (List OrderItemStatus))
    (orderFetch : Except StorageErr OrderStatus)
    (r₀ r₁ : ItemRow) (ev : Except StorageErr Unit)
    (e : StorageErr) (items : List OrderItemStatus)
    (hactive : ∃ s ∈ items, s ≠ OrderItemStatus.cancelled) :
    (∃ w, updateOrderStatusFromItems itemsFetch orderFetch = Except.ok w) ∧
    updateOrderStatusFromItems (Except.error e) orderFetch = Except.ok none ∧
    updateOrderStatusFromItems (Except.ok items) (Except.error e) = Except.ok none ∧
    (∀ w, updateOrderStatusFromItems itemsFetch orderFetch = Except.ok w →
      updateOrderItemStatus (Except.ok r₀) (Except.ok r₁) ev itemsFetch orderFetch =
        Except.ok (r₁, w)) := by
  refine ⟨updateOrderStatusFromItems_total _ _, rfl,
    updateOrderStatusFromItems_active_err items e hactive, ?_⟩
  intro w hw
  unfold updateOrderItemStatus
  dsimp only
  rw [hw]

theorem claim_C10_swallowed_storage_failures_witness :
    updateOrderStatusFromItems (Except.ok [OrderItemStatus.new])
      (Except.error StorageErr.err) = Except.ok none ∧
    updateOrderItemStatus (Except.ok (ItemRow.mk OrderItemStatus.new 1))
      (Except.ok (ItemRow.mk OrderItemStatus.done 1)) (Except.error StorageErr.err)
      (Except.ok [OrderItemStatus.new]) (Except.error StorageErr.err) =
      Except.ok (ItemRow.mk OrderItemStatus.done 1, none) := by
  have H := claim_C10_swallowed_storage_failures
    (Except.ok [OrderItemStatus.new]) (Except.error StorageErr.err)
    (ItemRow.mk OrderItemStatus.new 1) (ItemRow.mk OrderItemStatus.done 1)
    (Except.error StorageErr.err) StorageErr.err [OrderItemStatus.new]
    ⟨OrderItemStatus.new, by decide, by decide⟩
  exact ⟨H.2.2.1, H.2.2.2 none H.2.2.1⟩

/-! ### Store model: order and order-item rows

Money is modelled with exact rationals.  An `OrderItemRow` carries the fields
the mutation routines read: its id, owning order id, quantity, the joined
catalog `base_price`, the snapshot `price_delta`s of its modifiers, and its
status. -/

structure OrderItemRow where
  id : Nat
  order_id : Nat
  quantity : Nat
  base_price : Rat
  modifiers : List Rat
  status : OrderItemStatus
deriving DecidableEq, Repr

structure OrderRow where
  id : Nat
  status : OrderStatus
  subtotal : Rat
deriving DecidableEq, Repr

structure Store where
  orders : List OrderRow
  items : List OrderItemRow
deriving DecidableEq, Repr

/-- Embedding of `getOrderById(id)`: the single-row select returns the order
row, or null (`none`) when no row matches (error code PGRST116). -/
def getOrderById (store : Store) (id : Nat) : Option OrderRow :=
  store.orders.find? (fun o => o.id == id)

/-- The spec formula for one line: (base price + sum of the line's modifier
price deltas) × quantity. -/
def lineTotal (r : OrderItemRow) : Rat :=
  (r.base_price + r.modifiers.sum) * (r.quantity : Rat)

/-- The spec subtotal of an order: `lineTotal` summed over its items. -/
def specSubtotal (store : Store) (orderId : Nat) : Rat :=
  ((store.items.filter (fun r => r.order_id == orderId)).map lineTotal).sum

/-- Embedding of `recalculateOrderSubtotal(orderId)`: refetch the order's
items, reduce `(base_price + modifiers total) * quantity` over them, and
write the result onto the order row. -/
def recalculateOrderSubtotal (store : Store) (orderId : Nat) : Store :=
  let rows := store.items.filter (fun r => r.order_id == orderId)
  let subtotal := rows.foldl
    (fun total r =>
      total + (r.base_price + r.modifiers.foldl (fun sum d => sum + d) 0) *
        (r.quantity : Rat))
    0
  let newOrders := store.orders.map
    (fun o => if o.id == orderId then { o with subtotal := subtotal } else o)
  { store with orders := newOrders }

/-- One line of the cart input to `createOrder` (`CartItem`): the joined
catalog item's base price and skip-prep flag, the quantity, and the selected
modifiers' price deltas. -/
structure CartLine where
  base_price : Rat
  quantity : Nat
  modifiers : List Rat
  no_prep_needed : Bool
deriving DecidableEq, Repr

/-- The subtotal reduce at the top of `createOrder`: per line,
`base_price * quantity` plus each modifier's `price_delta * quantity`. -/
def createOrderSubtotal (lines : List CartLine) : Rat :=
  lines.foldl
    (fun total c =>
      total + c.base_price * (c.quantity : Rat) +
        c.modifiers.foldl (fun sum d => sum + d * (c.quantity : Rat)) 0)
    0

/-- The order-item insert of `createOrder`: one row per cart line, with
status `done` when the catalog item has `no_prep_needed` and `new` otherwise
(the modifier snapshots are the carried price deltas). -/
def createOrderItems (orderId : Nat) (lines : List CartLine) : List OrderItemRow :=
  lines.enum.map (fun p =>
    OrderItemRow.mk p.1 orderId p.2.quantity p.2.base_price p.2.modifiers
      (if p.2.no_prep_needed then OrderItemStatus.done else OrderItemStatus.new))

/-- Embedding of `createOrder(input)`: the inserted order row (status `new`,
subtotal from the reduce) together with its inserted item rows. -/
def createOrder (orderId : Nat) (lines : List CartLine) :
    OrderRow × List OrderItemRow :=
  (OrderRow.mk orderId OrderStatus.new (createOrderSubtotal lines),
    createOrderItems orderId lines)

/-- Embedding of `updateOrderStatusFromItems(orderId)` run against a store:
the item statuses are fetched from the order's item rows, the order fetch
fails when no order row matches (`.single()` errors), and an `ok (some s)`
outcome writes `s` onto the order row. -/
def applyUpdateOrderStatusFromItems (store : Store) (orderId : Nat) : Store :=
  let itemsFetch : Except StorageErr (List OrderItemStatus) :=
    Except.ok ((store.items.filter (fun r => r.order_id == orderId)).map
      (fun r => r.status))
  let orderFetch : Except StorageErr OrderStatus :=
    match store.orders.find? (fun o => o.id == orderId) with
    | some o => Except.ok o.status
    | none => Except.error StorageErr.err
  match updateOrderStatusFromItems itemsFetch orderFetch with
  | Except.ok (some s) =>
    let newOrders := store.orders.map
      (fun o => if o.id == orderId then { o with status := s } else o)
    { store with orders := newOrders }
  | _ => store

/-- Embedding of `updateOrderItemStatus` run against a store (`none` models
the throw when the item fetch fails).  The second component is the list of
order ids on which `updateOrderStatusFromItems` is invoked. -/
def updateOrderItemStatusRun (store : Store) (orderItemId : Nat)
    (newStatus : OrderItemStatus) : Option (Store × List Nat) :=
  match store.items.find? (fun r => r.id == orderItemId) with
  | none => none
  | some row =>
    let newItems := store.items.map
      (fun r => if r.id == orderItemId then { r with status := newStatus } else r)
    let store₁ : Store := { store with items := newItems }
    some (applyUpdateOrderStatusFromItems store₁ row.order_id, [row.order_id])

/-- `[...new Set(xs)]`: deduplication keeping first occurrences, in order
(auxiliary recursion over the list with the set of already-seen values). -/
def dedupFirstAux (seen : List Nat) : List Nat → List Nat
  | [] => []
  | x :: xs =>
    if seen.contains x then dedupFirstAux seen xs
    else x :: dedupFirstAux (x :: seen) xs

def dedupFirst (l : List Nat) : List Nat := dedupFirstAux [] l

/-- Embedding of `updateMultipleOrderItemsStatus(orderItemIds, newStatus)`:
early return on an empty id list; fetch the matching items; write the new
status on all of them; then invoke `updateOrderStatusFromItems` once per
distinct affected order id.  The second component is that list of order
ids. -/
def updateMultipleOrderItemsStatusRun (store : Store) (orderItemIds : List Nat)
    (newStatus : OrderItemStatus) : Store × List Nat :=
  if orderItemIds.isEmpty then (store, [])
  else
    let fetched := store.items.filter (fun r => orderItemIds.contains r.id)
    let newItems := store.items.map
      (fun r => if orderItemIds.contains r.id then { r with status := newStatus }
        else r)
    let store₁ : Store := { store with items := newItems }
    let uniqueOrderIds := dedupFirst (fetched.map (fun r => r.order_id))
    (uniqueOrderIds.foldl (fun s oid => applyUpdateOrderStatusFromItems s oid) store₁,
      uniqueOrderIds)

/-- Modelled from the spec: the zero-item order cleanup — "if zero items
remain on the order, the order itself is removed."  The removal step is not
in the supplied sources (the repository's initial database schema migration,
which the shipped RLS migration says it runs after, is absent; the terminal
caller of `deleteOrderItem` explicitly handles the order-was-deleted case),
so it is modelled here from the spec's words as a store-side step composed
with the item deletion. -/
def removeOrderIfEmpty (store : Store) (orderId : Nat) : Store :=
  if (store.items.filter (fun r => r.order_id == orderId)).isEmpty then
    let newOrders := store.orders.filter (fun o => !(o.id == orderId))
    { store with orders := newOrders }
  else store

/-- Embedding of `deleteOrderItem(orderItemId)` (`none` models the throw when
the item fetch fails): fetch the owning order id, delete the item row, then
recalculate the order subtotal, composed with the spec-modelled
`removeOrderIfEmpty` cleanup.  The second component is the list of order ids
on which `updateOrderStatusFromItems` is invoked — empty, because the
function's body never calls it. -/
def deleteOrderItemRun (store : Store) (orderItemId : Nat) :
    Option (Store × List Nat) :=
  match store.items.find? (fun r => r.id == orderItemId) with
  | none => none
  | some row =>
    let newItems := store.items.filter (fun r => !(r.id == orderItemId))
    let store₁ : Store := { store with items := newItems }
    some (removeOrderIfEmpty (recalculateOrderSubtotal store₁ row.order_id)
      row.order_id, [])

/-- Embedding of `updateOrderItem(orderItemId, updates)` restricted to the
fields the subtotal depends on: write the new quantity, replace the modifier
snapshots wholesale (delete-then-reinsert), then recalculate the order
subtotal (`none` models the throw when the item fetch fails). -/
def updateOrderItem (store : Store) (orderItemId : Nat) (quantity : Nat)
    (modifierDeltas : List Rat) : Option Store :=
  match store.items.find? (fun r => r.id == orderItemId) with
  | none => none
  | some row =>
    let newItems := store.items.map
      (fun r => if r.id == orderItemId then
        { r with quantity := quantity, modifiers := modifierDeltas } else r)
    let store₁ : Store := { store with items := newItems }
    some (recalculateOrderSubtotal store₁ row.order_id)

/-! ### Arithmetic and list lemmas for the store operations -/

theorem foldl_add_eq_sum {α : Type} (f : α → Rat) (l : List α) (a : Rat) :
    l.foldl (fun acc x => acc + f x) a = a + (l.map f).sum := by
  induction l generalizing a with
  | nil => simp
  | cons x xs ih => simp [ih, add_assoc]

theorem modFold_eq_sum (l : List Rat) :
    l.foldl (fun sum d => sum + d) 0 = l.sum := by
  have h := foldl_add_eq_sum (fun d : Rat => d) l 0
  simpa using h

theorem map_mul_sum (l : List Rat) (q : Rat) :
    (l.map (fun d => d * q)).sum = l.sum * q := by
  induction l with
  | nil => simp
  | cons x xs ih => simp [ih, add_mul]

/-- The reduce in `recalculateOrderSubtotal` computes the spec formula. -/
theorem recalcFold_eq (l : List OrderItemRow) :
    l.foldl
      (fun total r =>
        total + (r.base_price + r.modifiers.foldl (fun sum d => sum + d) 0) *
          (r.quantity : Rat)) 0 = (l.map lineTotal).sum := by
  have h := foldl_add_eq_sum lineTotal l 0
  rw [zero_add] at h
  rw [← h]
  congr 1
  funext t r
  rw [modFold_eq_sum]
  rfl

/-- The reduce in `createOrder` computes the spec formula line by line. -/
theorem createOrderSubtotal_eq (lines : List CartLine) :
    createOrderSubtotal lines =
      (lines.map (fun c => (c.base_price + c.modifiers.sum) * (c.quantity : Rat))).sum := by
  unfold createOrderSubtotal
  have h := foldl_add_eq_sum
    (fun c : CartLine => (c.base_price + c.modifiers.sum) * (c.quantity : Rat)) lines 0
  rw [zero_add] at h
  rw [← h]
  congr 1
  funext t c
  have hm := foldl_add_eq_sum (fun d : Rat => d * (c.quantity : Rat)) c.modifiers 0
  rw [zero_add] at hm
  rw [hm, map_mul_sum, add_mul, add_assoc]

theorem enum_map_snd_comp {α β : Type} (l : List α) (f : α → β) :
    l.enum.map (fun p => f p.2) = l.map f := by
  have h : (fun p : Nat × α => f p.2) = f ∘ Prod.snd := rfl
  rw [h, ← List.map_map, List.enum_map_snd]

theorem find?_filter_ne (l : List OrderRow) (oid : Nat) :
    (l.filter (fun o => !(o.id == oid))).find? (fun o => o.id == oid) = none := by
  induction l with
  | nil => rfl
  | cons o t ih =>
    by_cases h : (o.id == oid) = true
    · simp only [List.filter_cons, h, Bool.not_true, if_false]
      exact ih
    · have hf : (o.id == oid) = false := by
        cases hx : (o.id == oid)
        · rfl
        · exact absurd hx h
      simp only [List.filter_cons, hf, Bool.not_false, if_true, List.find?_cons, hf]
      exact ih

theorem find?_map_update (orders : List OrderRow) (oid : Nat)
    (g : OrderRow → OrderRow) (hg : ∀ o, (g o).id = o.id) :
    (orders.map (fun o => if o.id == oid then g o else o)).find?
        (fun o => o.id == oid) =
      (orders.find? (fun o => o.id == oid)).map g := by
  induction orders with
  | nil => rfl
  | cons o t ih =>
    by_cases h : (o.id == oid) = true
    · have hgo : ((g o).id == oid) = true := by rw [hg o]; exact h
      simp only [List.map_cons, h, if_true, List.find?_cons, hgo, Option.map_some]
      rfl
    · have hf : (o.id == oid) = false := by
        cases hx : (o.id == oid)
        · rfl
        · exact absurd hx h
      simp only [List.map_cons, hf, Bool.false_eq_true, if_false, List.find?_cons]
      exact ih

/-- `recalculateOrderSubtotal` writes exactly the spec subtotal onto the order
row and leaves everything else of the row (and the item table) alone. -/
theorem recalculateOrderSubtotal_find? (store : Store) (oid : Nat) :
    (recalculateOrderSubtotal store oid).orders.find? (fun o => o.id == oid) =
      (store.orders.find? (fun o => o.id == oid)).map
        (fun o => { o with subtotal := specSubtotal store oid }) := by
  unfold recalculateOrderSubtotal
  dsimp only
  rw [recalcFold_eq]
  exact find?_map_update store.orders oid _ (fun o => rfl)

theorem recalculateOrderSubtotal_items (store : Store) (oid : Nat) :
    (recalculateOrderSubtotal store oid).items = store.items := rfl

theorem removeOrderIfEmpty_items (store : Store) (oid : Nat) :
    (removeOrderIfEmpty store oid).items = store.items := by
  unfold removeOrderIfEmpty
  split <;> rfl

theorem specSubtotal_congr_items {s t : Store} (oid : Nat)
    (h : s.items = t.items) : specSubtotal s oid = specSubtotal t oid := by
  unfold specSubtotal
  rw [h]

theorem mem_dedupFirstAux (l : List Nat) : ∀ (seen : List Nat) (a : Nat),
    a ∈ dedupFirstAux seen l ↔ (a ∈ l ∧ a ∉ seen) := by
  induction l with
  | nil =>
    intro seen a
    simp [dedupFirstAux]
  | cons x xs ih =>
    intro seen a
    unfold dedupFirstAux
    by_cases hx : seen.contains x = true
    · rw [if_pos hx, ih]
      have hxs : x ∈ seen := by simpa using hx
      constructor
      · rintro ⟨ha, hn⟩
        exact ⟨List.mem_cons_of_mem _ ha, hn⟩
      · rintro ⟨ha, hn⟩
        rcases List.mem_cons.mp ha with rfl | hmem
        · exact absurd hxs hn
        · exact ⟨hmem, hn⟩
    · rw [if_neg hx]
      have hxs : x ∉ seen := by simpa using hx
      constructor
      · intro hmem
        rcases List.mem_cons.mp hmem with rfl | hmem₂
        · exact ⟨List.mem_cons_self _ _, hxs⟩
        · rw [ih] at hmem₂
          obtain ⟨h1, h2⟩ := hmem₂
          exact ⟨List.mem_cons_of_mem _ h1,
            fun hc => h2 (List.mem_cons_of_mem _ hc)⟩
      · rintro ⟨ha, hn⟩
        rcases List.mem_cons.mp ha with rfl | hmem₂
        · exact List.mem_cons_self _ _
        · by_cases hax : a = x
          · subst hax
            exact List.mem_cons_self _ _
          · refine List.mem_cons_of_mem _ ?_
            rw [ih]
            refine ⟨hmem₂, ?_⟩
            intro hc
            rcases List.mem_cons.mp hc with h | h
            · exact hax h
            · exact hn h

theorem nodup_dedupFirstAux (l : List Nat) :
    ∀ seen, (dedupFirstAux seen l).Nodup := by
  induction l with
  | nil =>
    intro seen
    simp [dedupFirstAux]
  | cons x xs ih =>
    intro seen
    unfold dedupFirstAux
    by_cases hx : seen.contains x = true
    · rw [if_pos hx]
      exact ih seen
    · rw [if_neg hx]
      refine List.nodup_cons.mpr ⟨?_, ih (x :: seen)⟩
      intro hc
      rw [mem_dedupFirstAux] at hc
      exact hc.2 (List.mem_cons_self _ _)

theorem mem_dedupFirst (l : List Nat) (a : Nat) : a ∈ dedupFirst l ↔ a ∈ l := by
  unfold dedupFirst
  rw [mem_dedupFirstAux]
  simp

theorem nodup_dedupFirst (l : List Nat) : (dedupFirst l).Nodup :=
  nodup_dedupFirstAux l []

/-- After `recalculateOrderSubtotal`, a surviving order row holds the spec
subtotal. -/
theorem subtotal_after_recalc (s : Store) (oid : Nat) (o : OrderRow)
    (hfound : (recalculateOrderSubtotal s oid).orders.find?
      (fun r => r.id == oid) = some o) :
    o.subtotal = specSubtotal (recalculateOrderSubtotal s oid) oid := by
  rw [recalculateOrderSubtotal_find?] at hfound
  cases hfo : s.orders.find? (fun r => r.id == oid) with
  | none => rw [hfo] at hfound; cases hfound
  | some o₀ =>
    rw [hfo] at hfound
    have h := Option.some.inj hfound
    rw [← h]
    rfl

/-- Same, composed with the zero-item cleanup step. -/
theorem subtotal_after_recalc_remove (s : Store) (oid : Nat) (o : OrderRow)
    (hfound : (removeOrderIfEmpty (recalculateOrderSubtotal s oid) oid).orders.find?
      (fun r => r.id == oid) = some o) :
    o.subtotal =
      specSubtotal (removeOrderIfEmpty (recalculateOrderSubtotal s oid) oid) oid := by
  unfold removeOrderIfEmpty at hfound ⊢
  by_cases hc : ((recalculateOrderSubtotal s oid).items.filter
      (fun r => r.order_id == oid)).isEmpty = true
  · rw [if_pos hc] at hfound
    dsimp only at hfound
    rw [find?_filter_ne] at hfound
    cases hfound
  · rw [if_neg hc] at hfound ⊢
    exact subtotal_after_recalc s oid o hfound

/-- After the cleanup step runs on an order left with zero items, the order id
no longer resolves. -/
theorem getOrderById_after_remove (s : Store) (oid : Nat)
    (hzero : (removeOrderIfEmpty (recalculateOrderSubtotal s oid) oid).items.filter
      (fun r => r.order_id == oid) = []) :
    getOrderById (removeOrderIfEmpty (recalculateOrderSubtotal s oid) oid) oid =
      none := by
  rw [removeOrderIfEmpty_items] at hzero
  have hc : ((recalculateOrderSubtotal s oid).items.filter
      (fun r => r.order_id == oid)).isEmpty = true := by
    rw [hzero]
    rfl
  unfold getOrderById removeOrderIfEmpty
  rw [if_pos hc]
  dsimp only
  exact find?_filter_ne _ _

/-- C4: `deleteOrderItem(itemId)` recomputes the owning order's subtotal
(whenever the order row survives, its stored subtotal equals the spec sum over
the remaining items), and when zero items remain on the order after the
deletion the order itself is removed, so that `getOrderById` on that order id
afterwards returns not-found (`none`).  The removal step itself is modelled
from the spec (see `removeOrderIfEmpty`). -/
theorem claim_C4_delete_recompute_and_cleanup
    (store : Store) (itemId : Nat) (row : OrderItemRow) (result : Store × List Nat)
    (hfind : store.items.find? (fun r => r.id == itemId) = some row)
    (hrun : deleteOrderItemRun store itemId = some result) :
    (∀ o, (result.1).orders.find? (fun r => r.id == row.order_id) = some o →
      o.subtotal = specSubtotal result.1 row.order_id) ∧
    ((result.1).items.filter (fun r => r.order_id == row.order_id) = [] →
      getOrderById result.1 row.order_id = none) := by
  unfold deleteOrderItemRun at hrun
  rw [hfind] at hrun
  dsimp only at hrun
  have hres := Option.some.inj hrun
  subst hres
  constructor
  · intro o hfound
    exact subtotal_after_recalc_remove _ _ o hfound
  · intro hzero
    exact getOrderById_after_remove _ _ hzero

theorem claim_C4_delete_recompute_and_cleanup_witness :
    (∀ o, (Store.mk [] []).orders.find? (fun r => r.id == 1) = some o →
      o.subtotal = specSubtotal (Store.mk [] []) 1) ∧
    ((Store.mk [] []).items.filter (fun r => r.order_id == 1) = [] →
      getOrderById (Store.mk [] []) 1 = none) :=
  claim_C4_delete_recompute_and_cleanup
    (Store.mk [OrderRow.mk 1 OrderStatus.new 3]
      [OrderItemRow.mk 10 1 1 3 [] OrderItemStatus.new])
    10 (OrderItemRow.mk 10 1 1 3 [] OrderItemStatus.new)
    (Store.mk [] [], []) rfl rfl

/-- C7: the stored subtotal equals
`Σ over items ((base price + Σ modifier price deltas) × quantity)`
after order creation (the created order row's subtotal is the spec sum over
its created item rows), after an item edit, and after an item deletion (in
both mutation cases, for the owning order's surviving row against the
resulting item table). -/
theorem claim_C7_subtotal_invariant
    (orderId : Nat) (lines : List CartLine)
    (store : Store) (itemId delItemId qty : Nat) (newMods : List Rat)
    (row delRow : OrderItemRow) (store₂ : Store) (delResult : Store × List Nat)
    (hfind : store.items.find? (fun r => r.id == itemId) = some row)
    (hedit : updateOrderItem store itemId qty newMods = some store₂)
    (hdfind : store.items.find? (fun r => r.id == delItemId) = some delRow)
    (hdel : deleteOrderItemRun store delItemId = some delResult) :
    (createOrder orderId lines).1.subtotal =
      (((createOrder orderId lines).2).map lineTotal).sum ∧
    (∀ o, store₂.orders.find? (fun r => r.id == row.order_id) = some o →
      o.subtotal = specSubtotal store₂ row.order_id) ∧
    (∀ o, (delResult.1).orders.find? (fun r => r.id == delRow.order_id) = some o →
      o.subtotal = specSubtotal delResult.1 delRow.order_id) := by
  refine ⟨?_, ?_, ?_⟩
  · show createOrderSubtotal lines = ((createOrderItems orderId lines).map lineTotal).sum
    rw [createOrderSubtotal_eq]
    congr 1
    unfold createOrderItems
    rw [List.map_map]
    exact (enum_map_snd_comp lines
      (fun c => (c.base_price + c.modifiers.sum) * (c.quantity : Rat))).symm
  · intro o hfound
    unfold updateOrderItem at hedit
    rw [hfind] at hedit
    dsimp only at hedit
    have hres := Option.some.inj hedit
    subst hres
    exact subtotal_after_recalc _ _ o hfound
  · intro o hfound
    unfold deleteOrderItemRun at hdel
    rw [hdfind] at hdel
    dsimp only at hdel
    have hres := Option.some.inj hdel
    subst hres
    exact subtotal_after_recalc_remove _ _ o hfound

theorem claim_C7_subtotal_invariant_witness :
    (createOrder 5 [CartLine.mk 3 2 [] false]).1.subtotal =
      (((createOrder 5 [CartLine.mk 3 2 [] false]).2).map lineTotal).sum ∧
    (∀ o, (recalculateOrderSubtotal
        (Store.mk [OrderRow.mk 1 OrderStatus.new 3]
          [OrderItemRow.mk 10 1 2 3 [1] OrderItemStatus.new]) 1).orders.find?
        (fun r => r.id == 1) = some o →
      o.subtotal = specSubtotal (recalculateOrderSubtotal
        (Store.mk [OrderRow.mk 1 OrderStatus.new 3]
          [OrderItemRow.mk 10 1 2 3 [1] OrderItemStatus.new]) 1) 1) ∧
    (∀ o, (removeOrderIfEmpty (recalculateOrderSubtotal
        (Store.mk [OrderRow.mk 1 OrderStatus.new 3] []) 1) 1).orders.find?
        (fun r => r.id == 1) = some o →
      o.subtotal = specSubtotal (removeOrderIfEmpty (recalculateOrderSubtotal
        (Store.mk [OrderRow.mk 1 OrderStatus.new 3] []) 1) 1) 1) :=
  claim_C7_subtotal_invariant 5 [CartLine.mk 3 2 [] false]
    (Store.mk [OrderRow.mk 1 OrderStatus.new 3]
      [OrderItemRow.mk 10 1 1 3 [] OrderItemStatus.new])
    10 10 2 [1]
    (OrderItemRow.mk 10 1 1 3 [] OrderItemStatus.new)
    (OrderItemRow.mk 10 1 1 3 [] OrderItemStatus.new)
    (recalculateOrderSubtotal
      (Store.mk [OrderRow.mk 1 OrderStatus.new 3]
        [OrderItemRow.mk 10 1 2 3 [1] OrderItemStatus.new]) 1)
    (removeOrderIfEmpty (recalculateOrderSubtotal
      (Store.mk [OrderRow.mk 1 OrderStatus.new 3] []) 1) 1, [])
    rfl rfl rfl rfl

/-- C5: `createOrder` creates a line whose catalog item has
`no_prep_needed = true` with initial item status `done` rather than `new`
(first conjunct, for every line of every order), and for an order consisting
of a single such line the order's aggregate status — the status the §4.1
classification derives from its item statuses — is `ready` immediately. -/
theorem claim_C5_no_prep_fast_path
    (orderId : Nat) (lines : List CartLine) (c : CartLine)
    (h : c.no_prep_needed = true) :
    ((createOrder orderId lines).2).map (fun r => r.status) =
      lines.map (fun l => if l.no_prep_needed then OrderItemStatus.done
        else OrderItemStatus.new) ∧
    deriveActiveStatus (activeItems
      (((createOrder orderId [c]).2).map (fun r => r.status))) = OrderStatus.ready := by
  constructor
  · show (createOrderItems orderId lines).map (fun r => r.status) = _
    unfold createOrderItems
    rw [List.map_map]
    exact enum_map_snd_comp lines
      (fun l => if l.no_prep_needed then OrderItemStatus.done else OrderItemStatus.new)
  · have h0 : ((createOrder orderId [c]).2).map (fun r => r.status) =
        [if c.no_prep_needed then OrderItemStatus.done else OrderItemStatus.new] := rfl
    rw [h0, h]
    decide

theorem claim_C5_no_prep_fast_path_witness :
    ((createOrder 7 [CartLine.mk 0 1 [] true]).2).map (fun r => r.status) =
      [CartLine.mk 0 1 [] true].map
        (fun l => if l.no_prep_needed then OrderItemStatus.done
          else OrderItemStatus.new) ∧
    deriveActiveStatus (activeItems
      (((createOrder 7 [CartLine.mk 0 1 [] true]).2).map (fun r => r.status))) =
      OrderStatus.ready :=
  claim_C5_no_prep_fast_path 7 [CartLine.mk 0 1 [] true]
    (CartLine.mk 0 1 [] true) rfl

/-- C6 counterexample: a concrete two-item order in which one item is
deleted — `deleteOrderItem` performs no aggregation call at all (the list of
order ids passed to `updateOrderStatusFromItems` is empty), contradicting
"the aggregation engine is invoked ... after every item deletion". -/
theorem claim_C6_counterexample :
    (deleteOrderItemRun
      (Store.mk [OrderRow.mk 1 OrderStatus.in_progress 5]
        [OrderItemRow.mk 10 1 1 3 [] OrderItemStatus.new,
          OrderItemRow.mk 11 1 1 2 [] OrderItemStatus.done])
      10).map (fun p => p.2) = some [] := rfl

/-- C6 amended: the aggregation engine (`updateOrderStatusFromItems`) is
invoked on the owning order after every single-item status update, and after
every batch status update once per distinct affected order (the invoked list
is duplicate-free and contains exactly the order ids of the fetched affected
items) — but it is not invoked on item deletion, which triggers only the
subtotal recompute (the invoked list there is empty). -/
theorem claim_C6_amended_aggregation_call_sites
    (store : Store) (itemId : Nat) (newStatus : OrderItemStatus)
    (row : OrderItemRow) (res : Store × List Nat)
    (itemIds : List Nat) (oid : Nat)
    (delId : Nat) (delRes : Store × List Nat)
    (hfind : store.items.find? (fun r => r.id == itemId) = some row)
    (hrun : updateOrderItemStatusRun store itemId newStatus = some res)
    (hdel : deleteOrderItemRun store delId = some delRes) :
    res.2 = [row.order_id] ∧
    (updateMultipleOrderItemsStatusRun store itemIds newStatus).2.Nodup ∧
    (oid ∈ (updateMultipleOrderItemsStatusRun store itemIds newStatus).2 ↔
      ∃ r ∈ store.items, r.id ∈ itemIds ∧ r.order_id = oid) ∧
    delRes.2 = [] := by
  refine ⟨?_, ?_, ?_, ?_⟩
  · unfold updateOrderItemStatusRun at hrun
    rw [hfind] at hrun
    dsimp only at hrun
    have h := Option.some.inj hrun
    rw [← h]
  · unfold updateMultipleOrderItemsStatusRun
    by_cases he : itemIds.isEmpty = true
    · rw [if_pos he]
      exact List.nodup_nil
    · rw [if_neg he]
      dsimp only
      exact nodup_dedupFirst _
  · unfold updateMultipleOrderItemsStatusRun
    by_cases he : itemIds.isEmpty = true
    · rw [if_pos he]
      have hnil : itemIds = [] := by
        cases itemIds with
        | nil => rfl
        | cons a l => cases he
      subst hnil
      simp
    · rw [if_neg he]
      dsimp only
      rw [mem_dedupFirst]
      constructor
      · intro hmem
        obtain ⟨r, hr, hrid⟩ := List.mem_map.mp hmem
        have := List.mem_filter.mp hr
        refine ⟨r, this.1, ?_, hrid⟩
        simpa using this.2
      · rintro ⟨r, hr, hid, hoid⟩
        refine List.mem_map.mpr ⟨r, ?_, hoid⟩
        refine List.mem_filter.mpr ⟨hr, ?_⟩
        simpa using hid
  · unfold deleteOrderItemRun at hdel
    rw [show store.items.find? (fun r => r.id == delId) =
      store.items.find? (fun r => r.id == delId) from rfl] at hdel
    cases hfd : store.items.find? (fun r => r.id == delId) with
    | none =>
      rw [hfd] at hdel
      cases hdel
    | some drow =>
      rw [hfd] at hdel
      dsimp only at hdel
      have h := Option.some.inj hdel
      rw [← h]

theorem claim_C6_amended_aggregation_call_sites_witness :
    ((applyUpdateOrderStatusFromItems
      (Store.mk [OrderRow.mk 1 OrderStatus.new 3]
        [OrderItemRow.mk 10 1 1 3 [] OrderItemStatus.done]) 1, [1]) :
        Store × List Nat).2 = [1] ∧
    (updateMultipleOrderItemsStatusRun
      (Store.mk [OrderRow.mk 1 OrderStatus.new 3]
        [OrderItemRow.mk 10 1 1 3 [] OrderItemStatus.new])
      [10] OrderItemStatus.done).2.Nodup ∧
    (1 ∈ (updateMultipleOrderItemsStatusRun
      (Store.mk [OrderRow.mk 1 OrderStatus.new 3]
        [OrderItemRow.mk 10 1 1 3 [] OrderItemStatus.new])
      [10] OrderItemStatus.done).2 ↔
      ∃ r ∈ (Store.mk [OrderRow.mk 1 OrderStatus.new 3]
        [OrderItemRow.mk 10 1 1 3 [] OrderItemStatus.new]).items,
        r.id ∈ [10] ∧ r.order_id = 1) ∧
    ((removeOrderIfEmpty (recalculateOrderSubtotal
      (Store.mk [OrderRow.mk 1 OrderStatus.new 3] []) 1) 1, ([] : List Nat)).2 = []) :=
  claim_C6_amended_aggregation_call_sites
    (Store.mk [OrderRow.mk 1 OrderStatus.new 3]
      [OrderItemRow.mk 10 1 1 3 [] OrderItemStatus.new])
    10 OrderItemStatus.done
    (OrderItemRow.mk 10 1 1 3 [] OrderItemStatus.new)
    (applyUpdateOrderStatusFromItems
      (Store.mk [OrderRow.mk 1 OrderStatus.new 3]
        [OrderItemRow.mk 10 1 1 3 [] OrderItemStatus.done]) 1, [1])
    [10] 1 10
    (removeOrderIfEmpty (recalculateOrderSubtotal
      (Store.mk [OrderRow.mk 1 OrderStatus.new 3] []) 1) 1, [])
    rfl rfl rfl

/-! ### Kitchen view-model lanes -/

/-- The three display lanes of the kitchen page. -/
inductive KitchenLane
  | lane_new
  | lane_in_progress
  | lane_done
deriving DecidableEq, Repr

/-- The category-filtered branch of `ordersByItemStatus` in the kitchen page:
the aggregate lane computed over the statuses of the order's items matching
the selected category (`none` = the order is pushed into no lane). -/
def ordersByItemStatusLane (statuses : List OrderItemStatus) : Option KitchenLane :=
  if statuses.isEmpty then none
  else
    let allNew := statuses.all (fun s => s == OrderItemStatus.new)
    let allDone := statuses.all (fun s => s == OrderItemStatus.done)
    let anyInProgress := statuses.any (fun s => s == OrderItemStatus.in_progress)
    let anyDone := statuses.any (fun s => s == OrderItemStatus.done)
    if allDone then some KitchenLane.lane_done
    else if anyInProgress || anyDone then some KitchenLane.lane_in_progress
    else if allNew then some KitchenLane.lane_new
    else none

/-- The unfiltered branch of `ordersByItemStatus`: the lane an order-level
status is displayed in (`ready` maps to the done/Ready lane; `picked_up` and
`cancelled` orders appear in no lane). -/
def laneOfOrderStatus (s : OrderStatus) : Option KitchenLane :=
  match s with
  | OrderStatus.new => some KitchenLane.lane_new
  | OrderStatus.in_progress => some KitchenLane.lane_in_progress
  | OrderStatus.ready => some KitchenLane.lane_done
  | _ => none

/-- C8 counterexample: a category subset with statuses `[done, picked_up]`.
The §4.1 server rule derives `ready` for this subset (lane `done`), but the
kitchen view-model's lane computation puts the order in the `in_progress`
lane (its `allDone` test fails and its `anyDone` test succeeds; it has no
handling for `picked_up`), so the two classifications disagree. -/
theorem claim_C8_counterexample :
    ordersByItemStatusLane [OrderItemStatus.done, OrderItemStatus.picked_up] =
      some KitchenLane.lane_in_progress ∧
    deriveActiveStatus (activeItems
      [OrderItemStatus.done, OrderItemStatus.picked_up]) = OrderStatus.ready ∧
    laneOfOrderStatus OrderStatus.ready = some KitchenLane.lane_done ∧
    some KitchenLane.lane_in_progress ≠ some KitchenLane.lane_done := by
  decide

/-- C8 amended: the kitchen view-model's category-filtered lane assignment
agrees with the §4.1 server-side classification of the same subset of item
statuses whenever that subset is non-empty and contains no `picked_up` and no
`cancelled` item (every status is `new`, `in_progress`, or `done`); with
`picked_up` or `cancelled` items in the subset the two classifications can
disagree (see the counterexample). -/
theorem claim_C8_amended_lane_refinement
    (statuses : List OrderItemStatus)
    (h1 : statuses ≠ [])
    (h2 : ∀ s ∈ statuses, s = OrderItemStatus.new ∨
      s = OrderItemStatus.in_progress ∨ s = OrderItemStatus.done) :
    ordersByItemStatusLane statuses =
      laneOfOrderStatus (deriveActiveStatus (activeItems statuses)) ∧
    activeItems statuses = statuses := by
  obtain ⟨x0, hx0⟩ := List.exists_mem_of_ne_nil statuses h1
  have hact : activeItems statuses = statuses := by
    unfold activeItems
    rw [List.filter_eq_self]
    intro a ha
    rcases h2 a ha with rfl | rfl | rfl <;> rfl
  refine ⟨?_, hact⟩
  rw [hact]
  have hne : statuses.isEmpty = false := by
    cases statuses with
    | nil => exact absurd rfl h1
    | cons a l => rfl
  have hpuAll : statuses.all (fun s => s == OrderItemStatus.picked_up) = false := by
    rw [List.all_eq_false]
    exact ⟨x0, hx0, by rcases h2 x0 hx0 with rfl | rfl | rfl <;> simp⟩
  have hpuAny : statuses.any (fun s => s == OrderItemStatus.picked_up) = false := by
    rw [List.any_eq_false]
    intro x hx
    rcases h2 x hx with rfl | rfl | rfl <;> simp
  unfold ordersByItemStatusLane deriveActiveStatus
  dsimp only
  rw [hne]
  simp only [Bool.false_eq_true, if_false, hpuAll, hpuAny]
  by_cases hAD : statuses.all (fun s => s == OrderItemStatus.done) = true
  · have hADP : statuses.all
        (fun s => s == OrderItemStatus.done || s == OrderItemStatus.picked_up) = true := by
      rw [List.all_eq_true] at hAD ⊢
      intro a ha
      simp [hAD a ha]
    have hAN : statuses.any (fun s => s == OrderItemStatus.new) = false := by
      rw [List.all_eq_true] at hAD
      rw [List.any_eq_false]
      intro a ha
      have := hAD a ha
      cases a <;> simp_all
    have hAI : statuses.any (fun s => s == OrderItemStatus.in_progress) = false := by
      rw [List.all_eq_true] at hAD
      rw [List.any_eq_false]
      intro a ha
      have := hAD a ha
      cases a <;> simp_all
    simp [hAD, hADP, hAN, hAI, laneOfOrderStatus]
  · have hADf : statuses.all (fun s => s == OrderItemStatus.done) = false := by
      cases hx : statuses.all (fun s => s == OrderItemStatus.done)
      · rfl
      · exact absurd hx hAD
    have hADP : statuses.all
        (fun s => s == OrderItemStatus.done || s == OrderItemStatus.picked_up) = false := by
      rw [List.all_eq_false]
      rw [List.all_eq_false] at hADf
      obtain ⟨a, ha, hnd⟩ := hADf
      refine ⟨a, ha, ?_⟩
      rcases h2 a ha with rfl | rfl | rfl <;> simp_all
    by_cases hAI : statuses.any (fun s => s == OrderItemStatus.in_progress) = true
    · simp [hADf, hADP, hAI, laneOfOrderStatus]
    · have hAIf : statuses.any (fun s => s == OrderItemStatus.in_progress) = false := by
        cases hx : statuses.any (fun s => s == OrderItemStatus.in_progress)
        · rfl
        · exact absurd hx hAI
      by_cases hAnD : statuses.any (fun s => s == OrderItemStatus.done) = true
      · simp [hADf, hADP, hAIf, hAnD, laneOfOrderStatus]
      · have hAnDf : statuses.any (fun s => s == OrderItemStatus.done) = false := by
          cases hx : statuses.any (fun s => s == OrderItemStatus.done)
          · rfl
          · exact absurd hx hAnD
        have hAN : statuses.all (fun s => s == OrderItemStatus.new) = true := by
          rw [List.all_eq_true]
          intro a ha
          rcases h2 a ha with rfl | rfl | rfl
          · rfl
          · rw [List.any_eq_false] at hAIf
            exact absurd rfl (hAIf _ ha)
          · rw [List.any_eq_false] at hAnDf
            exact absurd rfl (hAnDf _ ha)
        simp [hADf, hADP, hAIf, hAnDf, hAN, laneOfOrderStatus]

theorem claim_C8_amended_lane_refinement_witness :
    ordersByItemStatusLane [OrderItemStatus.new, OrderItemStatus.done] =
      laneOfOrderStatus (deriveActiveStatus
        (activeItems [OrderItemStatus.new, OrderItemStatus.done])) ∧
    activeItems [OrderItemStatus.new, OrderItemStatus.done] =
      [OrderItemStatus.new, OrderItemStatus.done] :=
  claim_C8_amended_lane_refinement [OrderItemStatus.new, OrderItemStatus.done]
    (by decide) (by decide)

end KitchenPos
